import Mathlib

/-!
Verification of the sandbox2 ptrace monitor (monitor_ptrace.cc) and the
unwinder symbol map (unwind.cc) by a shallow embedding in Lean.

Machine integers are modelled as Nat/Int; the kernel, ptrace and the
user-supplied Notify object are modelled as explicit environment parameters
of each handler; side effects (ptrace continuations, Notify callbacks,
register fetches) are returned as an explicit list of actions.
-/

namespace Sandbox2

/-! ## Linux wait(2) status word decoding (glibc macros) -/

/-- WTERMSIG: status and 0x7f. -/
def wTermSig (s : Nat) : Nat := s % 128

/-- WIFEXITED: (status and 0x7f) == 0. -/
def wIfExited (s : Nat) : Bool := s % 128 == 0

/-- WIFSIGNALED: ((signed char)((status and 0x7f) + 1) >> 1) > 0,
which holds exactly when (status and 0x7f) is in 1..126. -/
def wIfSignaled (s : Nat) : Bool := 1 ≤ s % 128 && s % 128 ≤ 126

/-- WEXITSTATUS: (status and 0xff00) >> 8. -/
def wExitStatus (s : Nat) : Nat := s / 256 % 256

/-- WIFSTOPPED: (status and 0xff) == 0x7f. -/
def wIfStopped (s : Nat) : Bool := s % 256 == 127

/-- WSTOPSIG: same bits as WEXITSTATUS. -/
def wStopSig (s : Nat) : Nat := s / 256 % 256

/-- __WPTRACEEVENT(x): (x and 0xff0000) >> 16 (monitor_ptrace.cc line 235). -/
def wPtraceEvent (s : Nat) : Nat := s / 65536 % 256

/-! ## Constants (x86_64 host, the build target) -/

def SIGTRAP : Nat := 5
def SIGKILL : Nat := 9
def SIGSYS : Nat := 31
def SIGSTOP : Nat := 19
def SIGTSTP : Nat := 20
def SIGTTIN : Nat := 21
def SIGTTOU : Nat := 22

def NR_clone : Nat := 56
def NR_fork : Nat := 57
def NR_vfork : Nat := 58
def NR_execve : Nat := 59
def NR_execveat : Nat := 322
def NR_clone3 : Nat := 435

/-- Modelled from the spec: the sapi::cpu::Architecture enum (config.h is not
part of the sources given); the spec speaks of a "known architecture range"
whose lowest member is kUnknown and whose highest is kMax.  The enum
enumerates kUnknown, x86-64, ppc64le, arm64, arm, so kUnknown = 0 and
kMax = 4. -/
def kUnknownArch : Int := 0

/-- Modelled from the spec: highest member of the architecture enum. -/
def kMaxArch : Int := 4

/-- Host architecture tag for the x86_64 build target (the value 1 slot of
the enum); handlers take the host arch as a parameter, this is the witness
value. -/
def hostArch : Int := 1

/-! ## Result (result.h surface used by the monitor) -/

inductive StatusEnum where
  | UNSET
  | OK
  | SETUP_ERROR
  | VIOLATION
  | SIGNALED
  | TIMEOUT
  | EXTERNAL_KILL
  | INTERNAL_ERROR
deriving DecidableEq, Repr

/-- Reason codes passed to SetExitStatusCode: either a plain number (exit
status, signal number, syscall number) or one of the enumerated
sub-reasons of result.h. -/
inductive Reason where
  | num (n : Int)
  | violationNetwork
  | failedSignals
  | failedPtrace
  | failedMonitor
  | failedFetch
  | failedInspect
  | failedChild
  | failedKill
  | failedInterrupt
  | failedGetEvent
deriving DecidableEq, Repr

/-- The slice of Result mutated by the ptrace monitor. -/
structure ResultState where
  final_status : StatusEnum := .UNSET
  reason_code : Reason := .num 0
  network_violation_msg : Option String := none
  syscall_attached : Option Nat := none
  regs_attached : Bool := false
deriving DecidableEq, Repr

/-- Modelled from the spec: MonitorBase::SetExitStatusCode (monitor_base.cc is
not among the sources given).  The spec states: "Setting final_status is
idempotent: only the first non-UNSET assignment wins" and "Invariant: Result
transitions UNSET → terminal exactly once; subsequent attempts to set it are
silently dropped." -/
def setExitStatusCode (r : ResultState) (st : StatusEnum) (reason : Reason) : ResultState :=
  if r.final_status = .UNSET then { r with final_status := st, reason_code := reason } else r

/-! ## Syscall and the syscalls-in-progress table -/

/-- The slice of sandbox2::Syscall the monitor state machine consults: the
syscall number.  (Arch is checked by EventPtraceSeccomp directly on the
event message, before regs are decoded.) -/
structure Syscall where
  nr : Nat
deriving DecidableEq, Repr

/-- The syscalls-in-progress table: absl::flat_hash_map from PID to Syscall,
with unique keys, modelled as an association list. -/
abbrev SyscallTable := List (Nat × Syscall)

def lookupPid (t : SyscallTable) (pid : Nat) : Option Syscall :=
  match t.find? (fun e => e.1 == pid) with
  | some e => some e.2
  | none => none

def erasePid (t : SyscallTable) (pid : Nat) : SyscallTable :=
  t.filter (fun e => e.1 != pid)

def insertPid (t : SyscallTable) (pid : Nat) (sc : Syscall) : SyscallTable :=
  (pid, sc) :: erasePid t pid

/-! ## Side effects of the handlers -/

inductive ViolationType where
  | kSyscallViolation
  | kArchitectureSwitchViolation
deriving DecidableEq, Repr

/-- Observable effects a handler performs: ptrace continuations, Notify
callbacks, register fetches and the -ENOSYS rewrite. -/
inductive Action where
  | contProcess (pid : Nat) (signo : Nat)
  | completeSyscall (pid : Nat)
  | stopProcess (pid : Nat)
  | fetchRegs (pid : Nat)
  | notifySyscallTrace (sc : Syscall)
  | notifySyscallReturn (sc : Syscall) (rv : Int)
  | notifySyscallViolation (sc : Syscall) (vt : ViolationType)
  | notifySignal (pid : Nat) (signo : Nat)
  | skipSyscallReturnValue (pid : Nat)
deriving DecidableEq, Repr

/-! ## Monitor state -/

/-- PtraceMonitor state touched by the event handlers. -/
structure MonitorState where
  result : ResultState := {}
  wait_for_execve : Bool := true
  network_violation : Bool := false
  external_kill : Bool := false
  timed_out : Bool := false
  should_dump_stack : Bool := false
  sandboxee_exited : Bool := false
  syscalls_in_progress : SyscallTable := []
deriving DecidableEq, Repr

/-- Outcome of Regs::Fetch as seen by a handler: success, the process
vanished (absl NotFound), or another failure. -/
inductive FetchRes where
  | ok
  | notFound
  | otherErr
deriving DecidableEq, Repr

/-- Notify::TraceAction. -/
inductive TraceAction where
  | kAllow
  | kDeny
  | kInspectAfterReturn
deriving DecidableEq, Repr

/-! ## Handlers (monitor_ptrace.cc) -/

/-- PtraceMonitor::ActionProcessSyscallViolation (lines 665-678): log, call
Notify::EventSyscallViolation, set Result to VIOLATION(nr), attach the
Syscall and the Regs snapshot, rewrite the syscall return value. -/
def actionProcessSyscallViolation (s : MonitorState) (pid : Nat) (sc : Syscall)
    (vt : ViolationType) : MonitorState × List Action :=
  let r := setExitStatusCode s.result .VIOLATION (.num sc.nr)
  let r := { r with syscall_attached := some sc.nr, regs_attached := true }
  ({ s with result := r },
   [.notifySyscallViolation sc vt, .skipSyscallReturnValue pid])

/-- PtraceMonitor::ActionProcessSyscall (lines 618-663). -/
def actionProcessSyscall (s : MonitorState) (pid : Nat) (sc : Syscall)
    (resp : TraceAction) (log_file permit_all : Bool) : MonitorState × List Action :=
  if sc.nr = NR_execveat ∧ s.wait_for_execve then
    (s, [.contProcess pid 0])
  else
    match resp with
    | .kAllow => (s, [.notifySyscallTrace sc, .contProcess pid 0])
    | .kInspectAfterReturn =>
        ({ s with syscalls_in_progress := insertPid s.syscalls_in_progress pid sc },
         [.notifySyscallTrace sc, .completeSyscall pid])
    | .kDeny =>
        if log_file then
          (s, [.notifySyscallTrace sc, .contProcess pid 0])
        else if permit_all then
          (s, [.notifySyscallTrace sc, .contProcess pid 0])
        else
          let o := actionProcessSyscallViolation s pid sc .kSyscallViolation
          (o.1, .notifySyscallTrace sc :: o.2)

/-- PtraceMonitor::EventPtraceSeccomp (lines 680-718).  The parameters after
event_msg describe the environment: the outcome of Regs::Fetch, the decoded
Syscall, the host architecture tag and the Notify/flag inputs consumed by
ActionProcessSyscall. -/
def eventPtraceSeccomp (s : MonitorState) (pid : Nat) (event_msg : Int)
    (fetch : FetchRes) (decoded : Syscall) (host_arch : Int)
    (resp : TraceAction) (log_file permit_all : Bool) : MonitorState × List Action :=
  if event_msg < kUnknownArch ∨ event_msg > kMaxArch then
    (s, [])
  else
    match fetch with
    | .notFound => (s, [.fetchRegs pid])
    | .otherErr =>
        ({ s with result := setExitStatusCode s.result .INTERNAL_ERROR .failedFetch },
         [.fetchRegs pid])
    | .ok =>
        if event_msg ≠ host_arch then
          let o := actionProcessSyscallViolation s pid decoded .kArchitectureSwitchViolation
          (o.1, .fetchRegs pid :: o.2)
        else
          let o := actionProcessSyscall s pid decoded resp log_file permit_all
          (o.1, .fetchRegs pid :: o.2)

/-- PtraceMonitor::EventSyscallExit (lines 720-744). -/
def eventSyscallExit (s : MonitorState) (pid : Nat) (fetch : FetchRes)
    (rv : Int) : MonitorState × List Action :=
  match lookupPid s.syscalls_in_progress pid with
  | none =>
      ({ s with result := setExitStatusCode s.result .INTERNAL_ERROR .failedInspect }, [])
  | some sc =>
      match fetch with
      | .notFound => (s, [.fetchRegs pid])
      | .otherErr =>
          ({ s with result := setExitStatusCode s.result .INTERNAL_ERROR .failedFetch },
           [.fetchRegs pid])
      | .ok =>
          ({ s with syscalls_in_progress := erasePid s.syscalls_in_progress pid },
           [.fetchRegs pid, .notifySyscallReturn sc rv, .contProcess pid 0])

/-- True for the clone/clone3/fork/vfork syscall numbers accepted by
EventPtraceNewProcess. -/
def cloneFamily (nr : Nat) : Bool :=
  nr == NR_clone || nr == NR_clone3 || nr == NR_fork || nr == NR_vfork

/-- PtraceMonitor::EventPtraceNewProcess (lines 746-773). -/
def eventPtraceNewProcess (s : MonitorState) (pid : Nat) (event_msg : Nat) :
    MonitorState × List Action :=
  match lookupPid s.syscalls_in_progress pid with
  | some sc =>
      if !cloneFamily sc.nr then
        ({ s with result := setExitStatusCode s.result .INTERNAL_ERROR .failedInspect }, [])
      else
        ({ s with syscalls_in_progress := erasePid s.syscalls_in_progress pid },
         [.notifySyscallReturn sc (Int.ofNat event_msg), .contProcess pid 0])
  | none => (s, [.contProcess pid 0])

/-- PtraceMonitor::EventPtraceExec (lines 775-798). -/
def eventPtraceExec (s : MonitorState) (pid : Nat) : MonitorState × List Action :=
  if s.wait_for_execve then
    ({ s with wait_for_execve := false }, [.contProcess pid 0])
  else
    match lookupPid s.syscalls_in_progress pid with
    | some sc =>
        if sc.nr ≠ NR_execve ∧ sc.nr ≠ NR_execveat then
          ({ s with result := setExitStatusCode s.result .INTERNAL_ERROR .failedInspect }, [])
        else
          ({ s with syscalls_in_progress := erasePid s.syscalls_in_progress pid },
           [.notifySyscallReturn sc 0, .contProcess pid 0])
    | none => (s, [.contProcess pid 0])

/-- Environment of EventPtraceExit: the Regs::Fetch outcome, the decoded
syscall (regs.ToSyscall of the host arch), the two stack-trace flags and the
network violation message held by the proxy server. -/
structure ExitEnv where
  fetch : FetchRes := .ok
  decoded : Syscall := ⟨0⟩
  collect_stacktrace_on_exit : Bool := false
  log_all_stack_traces : Bool := false
  violation_msg : String := ""
deriving Repr

/-- PtraceMonitor::EventPtraceExit (lines 800-868). -/
def eventPtraceExit (s : MonitorState) (main_pid pid event_msg : Nat)
    (env : ExitEnv) : MonitorState × List Action :=
  let s := { s with syscalls_in_progress := erasePid s.syscalls_in_progress pid }
  if wIfExited event_msg ∧ (¬env.collect_stacktrace_on_exit ∨ pid ≠ main_pid) then
    (s, [.contProcess pid 0])
  else
    let is_seccomp := wIfSignaled event_msg ∧ wTermSig event_msg = SIGSYS
    let need_fetch := is_seccomp ∨ pid = main_pid ∨ env.log_all_stack_traces
    if need_fetch ∧ env.fetch ≠ .ok then
      ({ s with result := setExitStatusCode s.result .INTERNAL_ERROR .failedFetch },
       [.fetchRegs pid])
    else if is_seccomp then
      let o := actionProcessSyscallViolation s pid env.decoded .kSyscallViolation
      (o.1, .fetchRegs pid :: o.2)
    else if pid = main_pid then
      let r :=
        if s.network_violation then
          { setExitStatusCode s.result .VIOLATION .violationNetwork with
            network_violation_msg := some env.violation_msg }
        else if s.external_kill then
          setExitStatusCode s.result .EXTERNAL_KILL (.num 0)
        else if s.timed_out then
          setExitStatusCode s.result .TIMEOUT (.num 0)
        else if wIfExited event_msg then
          setExitStatusCode s.result .OK (.num (wExitStatus event_msg))
        else
          setExitStatusCode s.result .SIGNALED (.num (wTermSig event_msg))
      ({ s with result := { r with regs_attached := true } },
       [.fetchRegs pid, .contProcess pid 0])
    else
      (s, (if need_fetch then [Action.fetchRegs pid] else []) ++ [.contProcess pid 0])

/-- PtraceMonitor::EventPtraceStop (lines 870-882). -/
def eventPtraceStop (s : MonitorState) (pid : Nat) (stopsig : Nat) :
    MonitorState × List Action :=
  if stopsig ≠ SIGSTOP ∧ stopsig ≠ SIGTSTP ∧ stopsig ≠ SIGTTIN ∧ stopsig ≠ SIGTTOU then
    (s, [.contProcess pid 0])
  else
    (s, [.stopProcess pid])

/-- Outcome of ptrace(PTRACE_GETEVENTMSG). -/
inductive GetEventMsgRes where
  | ok (msg : Nat)
  | esrch
  | err
deriving DecidableEq, Repr

/-- Environment consumed by StateProcessStopped and the handlers it invokes. -/
structure StopEnv where
  gevent : GetEventMsgRes := .ok 0
  fetch : FetchRes := .ok
  decoded : Syscall := ⟨0⟩
  ret_value : Int := 0
  notify_response : TraceAction := .kAllow
  log_file : Bool := false
  permit_all : Bool := false
  host_arch : Int := hostArch
  libunwind_sbox_for_pid_zero : Bool := true
  has_namespace : Bool := true
  exitEnv : ExitEnv := {}
deriving Repr

/-- PtraceMonitor::StateProcessStopped (lines 884-980). -/
def stateProcessStopped (s : MonitorState) (main_pid pid status : Nat)
    (env : StopEnv) : MonitorState × List Action :=
  let stopsig := wStopSig status
  let is_syscall_exit := stopsig = 133
  if wPtraceEvent status = 0 ∧ ¬is_syscall_exit then
    (s, [.notifySignal pid stopsig, .contProcess pid stopsig])
  else
    match env.gevent with
    | .esrch => (s, [])
    | .err =>
        ({ s with result := setExitStatusCode s.result .INTERNAL_ERROR .failedGetEvent }, [])
    | .ok msg =>
        let s :=
          if pid = main_pid ∧ s.should_dump_stack ∧ env.libunwind_sbox_for_pid_zero
             ∧ env.has_namespace then
            { s with should_dump_stack := false }
          else s
        if is_syscall_exit then
          eventSyscallExit s pid env.fetch env.ret_value
        else
          match wPtraceEvent status with
          | 1 => eventPtraceNewProcess s pid msg
          | 2 => eventPtraceNewProcess s pid msg
          | 3 => eventPtraceNewProcess s pid msg
          | 5 => (s, [.contProcess pid 0])
          | 4 => eventPtraceExec s pid
          | 6 => eventPtraceExit s main_pid pid msg env.exitEnv
          | 128 => eventPtraceStop s pid stopsig
          | 7 => eventPtraceSeccomp s pid (Int.ofNat msg) env.fetch env.decoded
                   env.host_arch env.notify_response env.log_file env.permit_all
          | _ => (s, [])

/-- The waitpid-status dispatch of PtraceMonitor::Run (lines 350-392). -/
def runDispatch (s : MonitorState) (main_pid ret status : Nat) (env : StopEnv)
    (violation_msg : String) : MonitorState × List Action :=
  if wIfExited status then
    if ret = main_pid then
      let r :=
        if ¬s.wait_for_execve then
          setExitStatusCode s.result .OK (.num (wExitStatus status))
        else
          setExitStatusCode s.result .SETUP_ERROR .failedMonitor
      ({ s with result := r, sandboxee_exited := true }, [])
    else (s, [])
  else if wIfSignaled status then
    if ret = main_pid then
      let r :=
        if s.network_violation then
          { setExitStatusCode s.result .VIOLATION .violationNetwork with
            network_violation_msg := some violation_msg }
        else if s.external_kill then
          setExitStatusCode s.result .EXTERNAL_KILL (.num 0)
        else if s.timed_out then
          setExitStatusCode s.result .TIMEOUT (.num 0)
        else
          setExitStatusCode s.result .SIGNALED (.num (wTermSig status))
      ({ s with result := r, sandboxee_exited := true }, [])
    else (s, [])
  else if wIfStopped status then
    stateProcessStopped s main_pid ret status env
  else
    (s, [])

/-! ## The main wait loop of PtraceMonitor::Run (lines 294-393) -/

/-- Result of PidWaiter::Wait as seen by one loop iteration. -/
inductive WaitRes where
  | noneReady
  | errChild
  | errOther
  | child (ret : Nat) (status : Nat)
deriving Repr

/-- Per-iteration environment of the main loop: the deadline/flag reads at
the top of the loop, the success of kill/interrupt, and the wait result. -/
structure IterEnv where
  deadline_exceeded : Bool := false
  kill_ok : Bool := true
  interrupt_ok : Bool := true
  dump_edge : Bool := false
  ext_kill_edge : Bool := false
  network_edge : Bool := false
  wait_res : WaitRes := .noneReady
  stop_env : StopEnv := {}
  violation_msg : String := ""
deriving Repr

/-- The deadline block of the loop body (lines 295-302): on an expired
deadline set timed_out and SIGKILL the main PID; a failing kill records
INTERNAL_ERROR/FAILED_KILL and breaks (the returned Bool). -/
def deadlineStep (s : MonitorState) (env : IterEnv) : MonitorState × Bool :=
  let s := if env.deadline_exceeded then { s with timed_out := true } else s
  if env.deadline_exceeded ∧ ¬env.kill_ok then
    ({ s with result := setExitStatusCode s.result .INTERNAL_ERROR .failedKill }, true)
  else (s, false)

/-- The dump-stack block (lines 304-309). -/
def dumpStep (s : MonitorState) (env : IterEnv) : MonitorState × Bool :=
  let s := if env.dump_edge then { s with should_dump_stack := true } else s
  if env.dump_edge ∧ ¬env.interrupt_ok then
    ({ s with result := setExitStatusCode s.result .INTERNAL_ERROR .failedInterrupt }, true)
  else (s, false)

/-- The external-kill block (lines 311-316). -/
def extKillStep (s : MonitorState) (env : IterEnv) : MonitorState × Bool :=
  let s := if env.ext_kill_edge then { s with external_kill := true } else s
  if env.ext_kill_edge ∧ ¬env.kill_ok then
    ({ s with result := setExitStatusCode s.result .INTERNAL_ERROR .failedKill }, true)
  else (s, false)

/-- The network-violation block (lines 318-326). -/
def networkStep (s : MonitorState) (env : IterEnv) : MonitorState × Bool :=
  let s :=
    if env.network_edge ∧ ¬s.network_violation then
      { s with network_violation := true }
    else s
  if env.network_edge ∧ ¬env.kill_ok then
    ({ s with result := setExitStatusCode s.result .INTERNAL_ERROR .failedKill }, true)
  else (s, false)

/-- The PidWaiter::Wait outcome handling and status dispatch of the loop
body (lines 328-392); never breaks (ECHILD records INTERNAL_ERROR and the
loop condition then terminates the loop). -/
def waitStep (main_pid : Nat) (s : MonitorState) (env : IterEnv) : MonitorState :=
  match env.wait_res with
  | .noneReady => s
  | .errChild =>
      { s with result := setExitStatusCode s.result .INTERNAL_ERROR .failedChild }
  | .errOther => s
  | .child ret status =>
      (runDispatch s main_pid ret status env.stop_env env.violation_msg).1

/-- One iteration of the main loop body, the blocks in source order; the
returned Bool is false exactly when the body executed a break statement. -/
def runIter (main_pid : Nat) (s : MonitorState) (env : IterEnv) :
    MonitorState × Bool :=
  let o1 := deadlineStep s env
  if o1.2 then (o1.1, false) else
  let o2 := dumpStep o1.1 env
  if o2.2 then (o2.1, false) else
  let o3 := extKillStep o2.1 env
  if o3.2 then (o3.1, false) else
  let o4 := networkStep o3.1 env
  if o4.2 then (o4.1, false) else
  (waitStep main_pid o4.1 env, true)

/-- The while loop of Run, driven by a finite schedule of iteration
environments (the fuel); the returned Bool is true exactly when the loop
exited (its condition became false, or a break ran) rather than the
schedule being exhausted. -/
def runLoop (main_pid : Nat) : List IterEnv → MonitorState → MonitorState × Bool
  | [], s => (s, false)
  | e :: rest, s =>
      if s.result.final_status ≠ .UNSET then (s, true)
      else
        let o := runIter main_pid s e
        if o.2 then runLoop main_pid rest o.1 else (o.1, true)

/-! ## PtraceMonitor::InitPtraceAttach seize-retry loop (lines 526-580) -/

/-- Outcome of one ptrace(PTRACE_SEIZE) call. -/
inductive SeizeRes where
  | ok
  | eperm
  | esrch
  | other
deriving DecidableEq, Repr

/-- One pass over the task list (the for loop at line 533): returns none on
a fatal errno, otherwise the tasks still left (EPERM) and the accumulated
attached set. -/
def seizeRound (seize : Nat → SeizeRes) :
    List Nat → List Nat → List Nat → Option (List Nat × List Nat)
  | [], left, att => some (left, att)
  | t :: ts, left, att =>
      match seize t with
      | .ok => seizeRound seize ts left (att ++ [t])
      | .eperm => seizeRound seize ts (left ++ [t]) att
      | .esrch => seizeRound seize ts left att
      | .other => none

/-- The 2 second attach budget, in milliseconds. -/
def kAttachDeadlineMs : Nat := 2000

inductive AttachOutcome where
  | success (attached : List Nat)
  | failure
  | fuelOut
deriving DecidableEq, Repr

/-- The while loop of InitPtraceAttach (lines 531-580).  oracle r t is the
errno outcome of seizing task t in round r; nowMs is the elapsed
milliseconds since attach start (absl::Now advances in this loop only by
SleepFor).  Translated faithfully, including the deadline comparison
exactly as written at line 566: the loop RETURNS FAILURE when
absl::Now() < deadline and only sleeps and retries otherwise. -/
def attachLoop (oracle : Nat → Nat → SeizeRes) :
    Nat → List Nat → List Nat → Nat → Nat → AttachOutcome
  | 0, tasks, attached, _, _ =>
      if tasks.isEmpty then .success attached else .fuelOut
  | fuel + 1, tasks, attached, retries, nowMs =>
      if tasks.isEmpty then .success attached
      else
        match seizeRound (oracle retries) tasks [] attached with
        | none => .failure
        | some (left, att) =>
            if left.isEmpty then
              attachLoop oracle fuel left att retries nowMs
            else if nowMs < kAttachDeadlineMs then
              .failure
            else
              let retry_interval := Nat.pow 2 (min 10 retries)
              let sleepMs := min retry_interval (min 20 (kAttachDeadlineMs - nowMs))
              attachLoop oracle fuel left att (retries + 1) (nowMs + sleepMs)

/-! ## PidWaiter (monitor_ptrace.cc lines 74-128) -/

/-- One kernel answer to a waitpid(pid, and status, WNOHANG or ...) call. -/
inductive WRes where
  | ready (pid : Int) (status : Int)
  | noChild
  | fail (e : Nat)
deriving DecidableEq, Repr

/-- Output of PidWaiter::RefillStatuses: the gathered (pid, status) pairs,
the recorded errno, and the pid arguments of the waitpid calls issued. -/
structure RefillOut where
  statuses : List (Int × Int)
  last_errno : Nat
  queries : List Int
deriving DecidableEq, Repr

/-- PidWaiter::RefillStatuses loop (lines 108-122).  script is the stream of
kernel answers to successive waitpid calls; pid is the argument of the next
call (priority pid first, -1 afterwards). -/
def refillGo : List WRes → Int → RefillOut
  | [], _ => ⟨[], 0, []⟩
  | r :: rest, pid =>
      match r with
      | .ready p st =>
          let o := refillGo rest (-1)
          ⟨(p, st) :: o.statuses, o.last_errno, pid :: o.queries⟩
      | .fail e => ⟨[], e, [pid]⟩
      | .noChild =>
          if pid = -1 then ⟨[], 0, [pid]⟩
          else
            let o := refillGo rest (-1)
            ⟨o.statuses, o.last_errno, pid :: o.queries⟩

structure PidWaiterState where
  priority_pid : Int
  statuses : List (Int × Int) := []
  last_errno : Nat := 0
deriving DecidableEq, Repr

/-- Result of one PidWaiter::Wait call: the returned pid (0 and -1 as in the
source), the status written through the out parameter, the errno the caller
observes on -1, the successor state, and the waitpid queries issued. -/
structure WaitOut where
  ret : Int
  status : Option Int
  errnoOut : Option Nat
  st : PidWaiterState
  queries : List Int
deriving DecidableEq, Repr

/-- PidWaiter::Wait (lines 83-100). -/
def pwWait (s : PidWaiterState) (script : List WRes) : WaitOut :=
  let refilled :=
    if s.statuses.isEmpty ∧ s.last_errno = 0 then
      let o := refillGo script s.priority_pid
      ({ s with statuses := o.statuses, last_errno := o.last_errno }, o.queries)
    else ((s, []) : PidWaiterState × List Int)
  let s := refilled.1
  match s.statuses with
  | [] =>
      if s.last_errno = 0 then ⟨0, none, none, s, refilled.2⟩
      else ⟨-1, none, some s.last_errno, { s with last_errno := 0 }, refilled.2⟩
  | (p, st) :: rest =>
      ⟨p, some st, none, { s with statuses := rest }, refilled.2⟩

/-! ## Symbol map of the unwinder (unwind.cc) -/

/-- absl::Hex default formatting: lowercase hex digits, no leading zeros
(Nat.toDigits 16 produces exactly that). -/
def toHex (n : Nat) : String := String.mk (Nat.toDigits 16 n)

/-- std::map from address to symbol name, as an association list sorted by
strictly increasing key. -/
abbrev SymbolMap := List (Nat × String)

/-- std::map insert-or-assign (operator square-brackets), keeping the list
sorted by key. -/
def mapInsert : SymbolMap → Nat → String → SymbolMap
  | [], k, v => [(k, v)]
  | (q, w) :: t, k, v =>
      if k < q then (k, v) :: (q, w) :: t
      else if k = q then (k, v) :: t
      else (q, w) :: mapInsert t k v

def mapLookup (m : SymbolMap) (k : Nat) : Option String :=
  match m.find? (fun e => e.1 == k) with
  | some e => some e.2
  | none => none

/-- GetSymbolAt (unwind.cc lines 171-189).  d models the external
abi::cxa_demangle-based DemangleSymbol.  On a key-sorted map,
lower_bound(addr) is the head of dropWhile (key < addr), begin is reached
exactly when takeWhile (key < addr) is empty, and the predecessor iterator
is the last element of that prefix. -/
def getSymbolAt (d : String → String) (m : SymbolMap) (addr : Nat) : String :=
  let pre := m.takeWhile (fun e => e.1 < addr)
  let nxt := m.dropWhile (fun e => e.1 < addr)
  match nxt, pre.getLast? with
  | e :: _, some p =>
      if e.1 = addr then d e.2
      else if p.2 ≠ "" then d p.2 ++ "+0x" ++ toHex (addr - p.1)
      else ""
  | _, _ => ""

/-- One parsed line of /proc/pid/maps (MapsEntry of maps_parser.h). -/
structure MapsEntry where
  start : Nat
  endAddr : Nat
  pgoff : Nat
  inode : Nat
  path : String
  is_executable : Bool
deriving DecidableEq, Repr

structure ElfSymbol where
  address : Nat
  name : String
deriving DecidableEq, Repr

/-- The slice of ElfFile::ParseFromFile output LoadSymbolsMap consumes:
whether parsing succeeded, the position-independence bit and the symbol
table. -/
structure ElfData where
  parses : Bool
  position_independent : Bool
  symbols : List ElfSymbol
deriving DecidableEq, Repr

/-- The skip condition of the maps loop (unwind.cc lines 204-208), negated:
executable, file-backed (inode nonzero), named, not deleted. -/
def acceptedEntry (e : MapsEntry) : Bool :=
  e.is_executable && e.inode != 0 && e.path != "" && !(e.path.endsWith " (deleted)")

/-- The pseudo-symbol stored at an accepted region start (lines 216-219). -/
def regionMapName (e : MapsEntry) : String :=
  "map:" ++ e.path ++ (if e.pgoff ≠ 0 then "+0x" ++ toHex e.pgoff else "")

/-- ARM mapping symbols dropped on arm hosts (lines 236-244). -/
def isArmMappingSymbol (n : String) : Bool :=
  n.startsWith "$x" || n.startsWith "$d" || n.startsWith "$t" ||
  n.startsWith "$a" || n.startsWith "$v"

/-- The key under which a symbol would be stored (lines 246-256): relocated
for position-independent objects, absolute otherwise. -/
def symKey (e : MapsEntry) (elf : ElfData) (sym : ElfSymbol) : Nat :=
  if elf.position_independent then sym.address + e.start - e.pgoff else sym.address

/-- Whether the symbol passes the range guard of lines 247-248 / 253. -/
def symInRange (e : MapsEntry) (elf : ElfData) (sym : ElfSymbol) : Bool :=
  if elf.position_independent then
    sym.address ≥ e.pgoff && sym.address - e.pgoff < e.endAddr - e.start
  else
    sym.address ≥ e.start && sym.address < e.endAddr

/-- The symbol loop of LoadSymbolsMap (lines 232-257). -/
def insertRegionSymbols (armHost : Bool) (e : MapsEntry) (elf : ElfData)
    (m : SymbolMap) : SymbolMap :=
  elf.symbols.foldl
    (fun m sym =>
      if armHost && isArmMappingSymbol sym.name then m
      else if symInRange e elf sym then mapInsert m (symKey e elf sym) sym.name
      else m)
    m

/-- The body of the maps loop of LoadSymbolsMap (lines 203-258) for one
region. -/
def processEntry (armHost : Bool) (m : SymbolMap) (e : MapsEntry)
    (elf : ElfData) : SymbolMap :=
  if !acceptedEntry e then m
  else
    let m := mapInsert m e.start (regionMapName e)
    let m := mapInsert m e.endAddr ""
    if !elf.parses then m
    else insertRegionSymbols armHost e elf m

/-- LoadSymbolsMap (lines 191-260) over the parsed maps entries paired with
the ELF data of each region's file. -/
def loadSymbolsMap (armHost : Bool) (entries : List (MapsEntry × ElfData)) : SymbolMap :=
  entries.foldl (fun m pe => processEntry armHost m pe.1 pe.2) []

/-- The status the claim predicts for a main-PID death by signal: the first
true flag of network_violation > external_kill > timed_out wins, otherwise
SIGNALED.  This follows the words of the spec and is compared against the
code. -/
def claimedPriorityStatus (net ek tmo : Bool) : StatusEnum :=
  if net then .VIOLATION
  else if ek then .EXTERNAL_KILL
  else if tmo then .TIMEOUT
  else .SIGNALED

/-- The reason code the claim predicts alongside claimedPriorityStatus. -/
def claimedPriorityReason (net ek tmo : Bool) (sig : Nat) : Reason :=
  if net then .violationNetwork
  else if ek then .num 0
  else if tmo then .num 0
  else .num sig

/-- The (pid, status) payload of a kernel answer that reported a ready
child, used to state which pairs a refill gathers. -/
def readyPair : WRes → Option (Int × Int)
  | .ready p st => some (p, st)
  | _ => none

/-! ## Helper lemmas -/

theorem setExitStatusCode_of_ne (r : ResultState) (st : StatusEnum) (rc : Reason)
    (h : r.final_status ≠ .UNSET) : setExitStatusCode r st rc = r := by
  unfold setExitStatusCode
  rw [if_neg h]

theorem setExitStatusCode_final_ne_unset (r : ResultState) (st : StatusEnum) (rc : Reason)
    (h : st ≠ .UNSET) : (setExitStatusCode r st rc).final_status ≠ .UNSET := by
  unfold setExitStatusCode
  split
  · exact h
  · next hcond => exact hcond

theorem setExitStatusCode_of_unset (r : ResultState) (st : StatusEnum) (rc : Reason)
    (h : r.final_status = .UNSET) :
    setExitStatusCode r st rc = { r with final_status := st, reason_code := rc } := by
  unfold setExitStatusCode
  rw [if_pos h]

theorem lookupPid_erasePid (t : SyscallTable) (pid : Nat) :
    lookupPid (erasePid t pid) pid = none := by
  have h : (erasePid t pid).find? (fun e => e.1 == pid) = none := by
    rw [List.find?_eq_none]
    intro x hx
    have hne := (List.mem_filter.mp hx).2
    simp only [bne_iff_ne, ne_eq] at hne
    simp [hne]
  simp [lookupPid, h]

theorem actionProcessSyscallViolation_table (s : MonitorState) (pid : Nat)
    (sc : Syscall) (vt : ViolationType) :
    (actionProcessSyscallViolation s pid sc vt).1.syscalls_in_progress =
      s.syscalls_in_progress := rfl

/-! ## Claim C1 (corrected): final-status priority on signal death -/

theorem wIfExited_false_of_signaled (s : Nat) (h : wIfSignaled s = true) :
    wIfExited s = false := by
  unfold wIfSignaled at h
  unfold wIfExited
  simp only [Bool.and_eq_true, decide_eq_true_eq] at h
  simp [Nat.ne_of_gt h.1]

/-- C1 counterexample: for the main PID (2), a PTRACE_EVENT_EXIT whose event
message 31 is a SIGSYS termination (not a normal exit — WIFEXITED is false,
WIFSIGNALED is true, WTERMSIG = 31) with all three flags false.  The claim
as stated requires the SIGNALED variant carrying signal 31; the code routes
the event to the syscall-violation handler first and records
VIOLATION(syscall number 39) instead. -/
theorem claim1_counterexample :
    wIfExited 31 = false ∧ wIfSignaled 31 = true ∧ wTermSig 31 = SIGSYS
    ∧ ({} : MonitorState).network_violation = false
    ∧ ({} : MonitorState).external_kill = false
    ∧ ({} : MonitorState).timed_out = false
    ∧ (eventPtraceExit {} 2 2 31 { decoded := ⟨39⟩ }).1.result.final_status =
        StatusEnum.VIOLATION
    ∧ (eventPtraceExit {} 2 2 31 { decoded := ⟨39⟩ }).1.result.reason_code = .num 39
    ∧ StatusEnum.VIOLATION ≠ StatusEnum.SIGNALED := by
  refine ⟨rfl, rfl, rfl, rfl, rfl, rfl, rfl, rfl, by decide⟩

/-- C1 amended: whenever the main PID is observed dead by signal —
WIFSIGNALED in the wait loop, or a PTRACE_EVENT_EXIT for the main PID whose
event message is neither a normal exit NOR a SIGSYS termination (a SIGSYS
termination is instead routed to the syscall-violation handler) — the final
Result is chosen by the fixed priority network_violation > external_kill >
timed_out > signaled, the first true flag determining the variant and its
reason code. -/
theorem claim1_amended_signal_priority (s : MonitorState)
    (main_pid status event_msg : Nat) (env : StopEnv) (vmsg : String)
    (xenv : ExitEnv) (hunset : s.result.final_status = .UNSET) :
    (wIfSignaled status = true →
      (runDispatch s main_pid main_pid status env vmsg).1.result.final_status =
        claimedPriorityStatus s.network_violation s.external_kill s.timed_out
      ∧ (runDispatch s main_pid main_pid status env vmsg).1.result.reason_code =
        claimedPriorityReason s.network_violation s.external_kill s.timed_out
          (wTermSig status))
    ∧ (wIfExited event_msg = false →
       ¬(wIfSignaled event_msg = true ∧ wTermSig event_msg = SIGSYS) →
       xenv.fetch = .ok →
      (eventPtraceExit s main_pid main_pid event_msg xenv).1.result.final_status =
        claimedPriorityStatus s.network_violation s.external_kill s.timed_out
      ∧ (eventPtraceExit s main_pid main_pid event_msg xenv).1.result.reason_code =
        claimedPriorityReason s.network_violation s.external_kill s.timed_out
          (wTermSig event_msg)) := by
  constructor
  · intro hsig
    have hex := wIfExited_false_of_signaled status hsig
    cases hnet : s.network_violation <;> cases hek : s.external_kill <;>
      cases hto : s.timed_out <;>
      simp [runDispatch, hex, hsig, hnet, hek, hto, claimedPriorityStatus,
            claimedPriorityReason, setExitStatusCode_of_unset _ _ _ hunset]
  · intro hexit hnsys hfetch
    cases hnet : s.network_violation <;> cases hek : s.external_kill <;>
      cases hto : s.timed_out <;>
      simp [eventPtraceExit, hexit, hnsys, hfetch, hnet, hek, hto,
            claimedPriorityStatus, claimedPriorityReason,
            setExitStatusCode_of_unset _ _ _ hunset]

/-- C1 witness: a timed-out main-PID SIGKILL death maps to TIMEOUT with
reason 0 both in the wait loop and on the exit event. -/
theorem claim1_witness :
    ({ timed_out := true } : MonitorState).result.final_status = .UNSET
    ∧ wIfSignaled 9 = true
    ∧ (runDispatch { timed_out := true } 2 2 9 {} "").1.result.final_status = .TIMEOUT
    ∧ (eventPtraceExit { timed_out := true } 2 2 9 {}).1.result.final_status = .TIMEOUT := by
  have h := claim1_amended_signal_priority { timed_out := true } 2 9 9 {} "" {} rfl
  refine ⟨rfl, rfl, ?_, ?_⟩
  · have h1 := (h.1 rfl).1
    simpa [claimedPriorityStatus] using h1
  · have h2 := (h.2 rfl (by decide) rfl).1
    simpa [claimedPriorityStatus] using h2

/-! ## Claim C5 (code bug): the attach deadline test is inverted -/

/-- C5: the claim states a PTRACE_SEIZE failing with EPERM is retried with
exponential backoff within a 2 second budget and attach fails only once
that budget is exhausted.  The code at monitor_ptrace.cc line 566 tests
absl::Now() < deadline and returns failure THEN, so the very first EPERM
(observed at elapsed time 0, long before the budget) aborts the attach with
no retry at all, for every fuel bound; ESRCH is skipped and other errnos
fail as described.  This contradicts the adjacent comment ("Let's try again
up until the timeout in this situation") and the error text ("Attaching to
sandboxee timed out"), which fires exactly when the attach has NOT timed
out. -/
theorem claim5_attach_eperm_fails_before_budget :
    (∀ fuel, attachLoop (fun _ _ => SeizeRes.eperm) (fuel + 1) [1] [] 0 0 =
      AttachOutcome.failure)
    ∧ attachLoop (fun _ _ => SeizeRes.esrch) 1 [42] [] 0 0 = AttachOutcome.success []
    ∧ attachLoop (fun _ _ => SeizeRes.other) 1 [42] [] 0 0 = AttachOutcome.failure
    ∧ attachLoop (fun _ _ => SeizeRes.ok) 1 [42] [] 0 0 = AttachOutcome.success [42] := by
  refine ⟨fun fuel => ?_, by decide, by decide, by decide⟩
  simp [attachLoop, seizeRound, kAttachDeadlineMs]

/-! ## Claim C8: seccomp event with unknown architecture tag is ignored -/

/-- C8: when EventPtraceSeccomp receives an event message outside the known
architecture range, it returns immediately: the monitor state (hence the
Result) is unchanged, and no register fetch, Notify call, violation or
continuation is performed. -/
theorem claim8_seccomp_unknown_arch_ignored (s : MonitorState) (pid : Nat)
    (event_msg : Int) (fetch : FetchRes) (decoded : Syscall) (host_arch : Int)
    (resp : TraceAction) (lf pa : Bool)
    (h : event_msg < kUnknownArch ∨ event_msg > kMaxArch) :
    eventPtraceSeccomp s pid event_msg fetch decoded host_arch resp lf pa = (s, []) := by
  unfold eventPtraceSeccomp
  rw [if_pos h]

/-- C8 witness: an exit-status-looking event message (256, that is a
WIFEXITED word for exit code 1) is above kMax and the handler is a no-op. -/
theorem claim8_witness :
    ((256 : Int) < kUnknownArch ∨ (256 : Int) > kMaxArch)
    ∧ eventPtraceSeccomp {} 2 256 .ok ⟨0⟩ hostArch .kAllow false false = ({}, []) :=
  ⟨Or.inr (by decide),
   claim8_seccomp_unknown_arch_ignored {} 2 256 .ok ⟨0⟩ hostArch .kAllow false false
     (Or.inr (by decide))⟩

/-! ## Claim C9: syscall-exit-stop with no table entry -/

/-- C9: a syscall-exit-stop for a PID with no syscalls-in-progress entry sets
the Result to INTERNAL_ERROR with sub-reason FAILED_INSPECT and performs no
action at all (in particular the stopped process is not continued); when an
entry exists and the register fetch succeeds, the handler calls
Notify::EventSyscallReturn with the fetched return value, erases the entry
and continues the PID. -/
theorem claim9_syscall_exit_entry_required (s : MonitorState) (pid : Nat)
    (fetch : FetchRes) (rv : Int) :
    (lookupPid s.syscalls_in_progress pid = none →
      s.result.final_status = .UNSET →
      (eventSyscallExit s pid fetch rv).1.result.final_status = .INTERNAL_ERROR
      ∧ (eventSyscallExit s pid fetch rv).1.result.reason_code = .failedInspect
      ∧ (eventSyscallExit s pid fetch rv).2 = [])
    ∧ (∀ sc, lookupPid s.syscalls_in_progress pid = some sc → fetch = .ok →
      eventSyscallExit s pid fetch rv =
        ({ s with syscalls_in_progress := erasePid s.syscalls_in_progress pid },
         [.fetchRegs pid, .notifySyscallReturn sc rv, .contProcess pid 0])) := by
  constructor
  · intro hnone hunset
    unfold eventSyscallExit
    rw [hnone]
    simp [setExitStatusCode_of_unset _ _ _ hunset]
  · intro sc hsc hok
    unfold eventSyscallExit
    rw [hsc, hok]

/-- C9 witness: concrete instances of both branches. -/
theorem claim9_witness :
    ((eventSyscallExit {} 3 .ok 42).1.result.final_status = .INTERNAL_ERROR
      ∧ (eventSyscallExit {} 3 .ok 42).1.result.reason_code = .failedInspect
      ∧ (eventSyscallExit {} 3 .ok 42).2 = [])
    ∧ eventSyscallExit { syscalls_in_progress := [(3, ⟨1⟩)] } 3 .ok 42 =
        ({ syscalls_in_progress := [] },
         [.fetchRegs 3, .notifySyscallReturn ⟨1⟩ 42, .contProcess 3 0]) := by
  constructor
  · exact (claim9_syscall_exit_entry_required {} 3 .ok 42).1 rfl rfl
  · have h := (claim9_syscall_exit_entry_required
      { syscalls_in_progress := [(3, ⟨1⟩)] } 3 .ok 42).2 ⟨1⟩ rfl rfl
    simpa [erasePid] using h

/-! ## Claim C4: the ActionProcessSyscall decision table -/

/-- C4: while sandboxing is not yet active an execveat syscall is continued
without consulting Notify (the outcome is a bare PTRACE_CONT, no
EventSyscallTrace action, whatever Notify would answer); otherwise
EventSyscallTrace decides: kAllow continues the process, kInspectAfterReturn
stores the syscall in the in-progress table and issues PTRACE_SYSCALL, and
kDeny raises a violation unless the permissible-log file or the
danger_danger_permit_all flag is active, in which case the process is
continued instead. -/
theorem claim4_action_process_syscall (s : MonitorState) (pid : Nat) (sc : Syscall)
    (resp : TraceAction) (lf pa : Bool) :
    (sc.nr = NR_execveat → s.wait_for_execve = true →
      actionProcessSyscall s pid sc resp lf pa = (s, [.contProcess pid 0]))
    ∧ (¬(sc.nr = NR_execveat ∧ s.wait_for_execve = true) →
        (resp = .kAllow →
          actionProcessSyscall s pid sc resp lf pa =
            (s, [.notifySyscallTrace sc, .contProcess pid 0]))
        ∧ (resp = .kInspectAfterReturn →
          actionProcessSyscall s pid sc resp lf pa =
            ({ s with syscalls_in_progress := insertPid s.syscalls_in_progress pid sc },
             [.notifySyscallTrace sc, .completeSyscall pid]))
        ∧ (resp = .kDeny → lf = true ∨ pa = true →
          actionProcessSyscall s pid sc resp lf pa =
            (s, [.notifySyscallTrace sc, .contProcess pid 0]))
        ∧ (resp = .kDeny → lf = false → pa = false → s.result.final_status = .UNSET →
          (actionProcessSyscall s pid sc resp lf pa).1.result.final_status = .VIOLATION
          ∧ (actionProcessSyscall s pid sc resp lf pa).1.result.reason_code = .num sc.nr
          ∧ Action.contProcess pid 0 ∉ (actionProcessSyscall s pid sc resp lf pa).2)) := by
  constructor
  · intro hnr hwait
    unfold actionProcessSyscall
    rw [if_pos ⟨hnr, by simp [hwait]⟩]
  · intro hbyp
    have hcond : ¬(sc.nr = NR_execveat ∧ s.wait_for_execve) := by
      intro hc
      exact hbyp ⟨hc.1, by simpa using hc.2⟩
    refine ⟨?_, ?_, ?_, ?_⟩
    · intro hresp
      unfold actionProcessSyscall
      rw [if_neg hcond, hresp]
    · intro hresp
      unfold actionProcessSyscall
      rw [if_neg hcond, hresp]
    · intro hresp hlp
      unfold actionProcessSyscall
      rw [if_neg hcond, hresp]
      rcases hlp with hl | hp
      · simp [hl]
      · cases lf <;> simp [hp]
    · intro hresp hl hp hunset
      unfold actionProcessSyscall
      rw [if_neg hcond, hresp]
      simp only [hl, hp, if_false, Bool.false_eq_true]
      simp [actionProcessSyscallViolation,
            setExitStatusCode_of_unset _ _ _ hunset]

/-- C4 witness: concrete instances of the bypass branch and the deny
branch. -/
theorem claim4_witness :
    actionProcessSyscall { wait_for_execve := true } 7 ⟨NR_execveat⟩ .kDeny false false =
      ({ wait_for_execve := true }, [.contProcess 7 0])
    ∧ (actionProcessSyscall { wait_for_execve := false } 7 ⟨39⟩ .kDeny false false).1.result.final_status
        = .VIOLATION := by
  constructor
  · exact (claim4_action_process_syscall { wait_for_execve := true } 7 ⟨NR_execveat⟩
      .kDeny false false).1 rfl rfl
  · exact (((claim4_action_process_syscall { wait_for_execve := false } 7 ⟨39⟩
      .kDeny false false).2 (by decide)).2.2.2 rfl rfl rfl rfl).1

/-! ## Claim C3: syscalls-in-progress bookkeeping -/

/-- C3: the syscalls-in-progress table obeys the insert/erase pairing: (1) a
PTRACE_EVENT_EXIT for a PID leaves no entry for that PID, whatever the rest
of the handler does (the erase is unconditional and precedes all other
handling, including every early return); (2) ActionProcessSyscall inserts
only when Notify answered kInspectAfterReturn and the execveat bypass did
not fire, and then inserts exactly the traced syscall; (3) a syscall-exit
stop with an entry erases it after Notify::EventSyscallReturn fires; (4) a
fork/vfork/clone event with a clone-family entry erases it eagerly and
reports the child PID as the return value; (5) while actively monitoring,
an exec event with an execve-family entry erases it eagerly and reports 0. -/
theorem claim3_syscalls_in_progress_pairing :
    (∀ (s : MonitorState) (main_pid pid msg : Nat) (env : ExitEnv),
      lookupPid (eventPtraceExit s main_pid pid msg env).1.syscalls_in_progress pid = none)
    ∧ (∀ (s : MonitorState) (pid : Nat) (sc : Syscall) (resp : TraceAction) (lf pa : Bool),
        resp ≠ .kInspectAfterReturn →
        (actionProcessSyscall s pid sc resp lf pa).1.syscalls_in_progress =
          s.syscalls_in_progress)
    ∧ (∀ (s : MonitorState) (pid : Nat) (sc : Syscall) (lf pa : Bool),
        sc.nr = NR_execveat → s.wait_for_execve = true →
        (actionProcessSyscall s pid sc .kInspectAfterReturn lf pa).1.syscalls_in_progress =
          s.syscalls_in_progress)
    ∧ (∀ (s : MonitorState) (pid : Nat) (sc : Syscall) (lf pa : Bool),
        ¬(sc.nr = NR_execveat ∧ s.wait_for_execve = true) →
        (actionProcessSyscall s pid sc .kInspectAfterReturn lf pa).1.syscalls_in_progress =
          insertPid s.syscalls_in_progress pid sc)
    ∧ (∀ (s : MonitorState) (pid : Nat) (sc : Syscall) (rv : Int),
        lookupPid s.syscalls_in_progress pid = some sc →
        (eventSyscallExit s pid .ok rv).1.syscalls_in_progress =
          erasePid s.syscalls_in_progress pid
        ∧ Action.notifySyscallReturn sc rv ∈ (eventSyscallExit s pid .ok rv).2)
    ∧ (∀ (s : MonitorState) (pid msg : Nat) (sc : Syscall),
        lookupPid s.syscalls_in_progress pid = some sc → cloneFamily sc.nr = true →
        (eventPtraceNewProcess s pid msg).1.syscalls_in_progress =
          erasePid s.syscalls_in_progress pid
        ∧ Action.notifySyscallReturn sc (Int.ofNat msg) ∈ (eventPtraceNewProcess s pid msg).2)
    ∧ (∀ (s : MonitorState) (pid : Nat) (sc : Syscall),
        s.wait_for_execve = false → lookupPid s.syscalls_in_progress pid = some sc →
        (sc.nr = NR_execve ∨ sc.nr = NR_execveat) →
        (eventPtraceExec s pid).1.syscalls_in_progress =
          erasePid s.syscalls_in_progress pid
        ∧ Action.notifySyscallReturn sc 0 ∈ (eventPtraceExec s pid).2) := by
  refine ⟨?_, ?_, ?_, ?_, ?_, ?_, ?_⟩
  · intro s main_pid pid msg env
    have htab : (eventPtraceExit s main_pid pid msg env).1.syscalls_in_progress =
        erasePid s.syscalls_in_progress pid := by
      unfold eventPtraceExit
      dsimp only
      split
      · rfl
      · split
        · rfl
        · split
          · rfl
          · split
            · rfl
            · rfl
    rw [htab]
    exact lookupPid_erasePid _ _
  · intro s pid sc resp lf pa hresp
    unfold actionProcessSyscall
    split
    · rfl
    · cases resp with
      | kAllow => rfl
      | kInspectAfterReturn => exact absurd rfl hresp
      | kDeny =>
          simp only
          split
          · rfl
          · split
            · rfl
            · rfl
  · intro s pid sc lf pa hnr hwait
    unfold actionProcessSyscall
    rw [if_pos ⟨hnr, by simp [hwait]⟩]
  · intro s pid sc lf pa hbyp
    have hcond : ¬(sc.nr = NR_execveat ∧ s.wait_for_execve) := by
      intro hc
      exact hbyp ⟨hc.1, by simpa using hc.2⟩
    unfold actionProcessSyscall
    rw [if_neg hcond]
  · intro s pid sc rv hsc
    unfold eventSyscallExit
    rw [hsc]
    exact ⟨rfl, by simp⟩
  · intro s pid msg sc hsc hfam
    unfold eventPtraceNewProcess
    rw [hsc]
    simp [hfam]
  · intro s pid sc hwait hsc hfam
    unfold eventPtraceExec
    rw [hwait]
    simp only [Bool.false_eq_true, if_false]
    rw [hsc]
    rcases hfam with h | h <;> simp [h, NR_execve, NR_execveat]

/-- C3 witness: concrete instances of the exit-event wipe, the inspect
insertion and the syscall-exit erase. -/
theorem claim3_witness :
    lookupPid (eventPtraceExit { syscalls_in_progress := [(3, ⟨56⟩)] } 2 3 0 {}).1.syscalls_in_progress 3 = none
    ∧ (actionProcessSyscall { wait_for_execve := false } 3 ⟨0⟩ .kInspectAfterReturn false false).1.syscalls_in_progress = [(3, ⟨0⟩)]
    ∧ (eventSyscallExit { wait_for_execve := false, syscalls_in_progress := [(3, ⟨0⟩)] } 3 .ok 7).1.syscalls_in_progress = [] := by
  refine ⟨claim3_syscalls_in_progress_pairing.1 _ 2 3 0 {}, ?_, ?_⟩
  · have h := claim3_syscalls_in_progress_pairing.2.2.2.1
      { wait_for_execve := false } 3 ⟨0⟩ false false (by simp)
    simpa [insertPid, erasePid] using h
  · have h := (claim3_syscalls_in_progress_pairing.2.2.2.2.1 { wait_for_execve := false, syscalls_in_progress := [(3, ⟨0⟩)] } 3 ⟨0⟩ 7 rfl).1
    simpa [erasePid] using h

/-! ## Claim C2: the Result is set exactly once -/

theorem violation_final_stable (s : MonitorState) (pid : Nat) (sc : Syscall)
    (vt : ViolationType) (h : s.result.final_status ≠ .UNSET) :
    (actionProcessSyscallViolation s pid sc vt).1.result.final_status =
      s.result.final_status := by
  simp [actionProcessSyscallViolation, setExitStatusCode_of_ne _ _ _ h]

theorem aps_final_stable (s : MonitorState) (pid : Nat) (sc : Syscall)
    (resp : TraceAction) (lf pa : Bool) (h : s.result.final_status ≠ .UNSET) :
    (actionProcessSyscall s pid sc resp lf pa).1.result.final_status =
      s.result.final_status := by
  unfold actionProcessSyscall
  split
  · rfl
  · cases resp with
    | kAllow => rfl
    | kInspectAfterReturn => rfl
    | kDeny =>
        simp only
        split
        · rfl
        · split
          · rfl
          · exact violation_final_stable s pid sc .kSyscallViolation h

theorem seccomp_final_stable (s : MonitorState) (pid : Nat) (event_msg : Int)
    (fetch : FetchRes) (decoded : Syscall) (host_arch : Int) (resp : TraceAction)
    (lf pa : Bool) (h : s.result.final_status ≠ .UNSET) :
    (eventPtraceSeccomp s pid event_msg fetch decoded host_arch resp
      lf pa).1.result.final_status = s.result.final_status := by
  unfold eventPtraceSeccomp
  split
  · rfl
  · cases fetch with
    | notFound => rfl
    | otherErr => simp [setExitStatusCode_of_ne _ _ _ h]
    | ok =>
        simp only
        split
        · exact violation_final_stable s pid decoded .kArchitectureSwitchViolation h
        · exact aps_final_stable s pid decoded resp lf pa h

theorem sysexit_final_stable (s : MonitorState) (pid : Nat) (fetch : FetchRes)
    (rv : Int) (h : s.result.final_status ≠ .UNSET) :
    (eventSyscallExit s pid fetch rv).1.result.final_status =
      s.result.final_status := by
  unfold eventSyscallExit
  split
  · simp [setExitStatusCode_of_ne _ _ _ h]
  · cases fetch with
    | notFound => rfl
    | otherErr => simp [setExitStatusCode_of_ne _ _ _ h]
    | ok => rfl

theorem newproc_final_stable (s : MonitorState) (pid msg : Nat)
    (h : s.result.final_status ≠ .UNSET) :
    (eventPtraceNewProcess s pid msg).1.result.final_status =
      s.result.final_status := by
  unfold eventPtraceNewProcess
  split
  · split
    · simp [setExitStatusCode_of_ne _ _ _ h]
    · rfl
  · rfl

theorem exec_final_stable (s : MonitorState) (pid : Nat)
    (h : s.result.final_status ≠ .UNSET) :
    (eventPtraceExec s pid).1.result.final_status = s.result.final_status := by
  unfold eventPtraceExec
  split
  · rfl
  · split
    · split
      · simp [setExitStatusCode_of_ne _ _ _ h]
      · rfl
    · rfl

theorem exit_final_stable (s : MonitorState) (main_pid pid msg : Nat)
    (env : ExitEnv) (h : s.result.final_status ≠ .UNSET) :
    (eventPtraceExit s main_pid pid msg env).1.result.final_status =
      s.result.final_status := by
  unfold eventPtraceExit
  dsimp only
  split
  · rfl
  · split
    · simp [setExitStatusCode_of_ne _ _ _ h]
    · split
      · exact violation_final_stable _ pid env.decoded .kSyscallViolation h
      · split
        · cases hnet : s.network_violation <;> cases hek : s.external_kill <;>
            cases hto : s.timed_out <;> cases hx : wIfExited msg <;>
            simp [hnet, hek, hto, hx, setExitStatusCode_of_ne _ _ _ h]
        · rfl

theorem stop_final_stable (s : MonitorState) (pid stopsig : Nat) :
    (eventPtraceStop s pid stopsig).1.result.final_status =
      s.result.final_status := by
  unfold eventPtraceStop
  split <;> rfl

theorem sps_final_stable (s : MonitorState) (main_pid pid status : Nat)
    (env : StopEnv) (h : s.result.final_status ≠ .UNSET) :
    (stateProcessStopped s main_pid pid status env).1.result.final_status =
      s.result.final_status := by
  unfold stateProcessStopped
  dsimp only
  split
  · rfl
  · cases env.gevent with
    | esrch => rfl
    | err => simp [setExitStatusCode_of_ne _ _ _ h]
    | ok msg =>
        simp only
        by_cases hd : pid = main_pid ∧ s.should_dump_stack = true ∧
            env.libunwind_sbox_for_pid_zero = true ∧ env.has_namespace = true
        · rw [if_pos hd]
          split
          · exact sysexit_final_stable _ pid env.fetch env.ret_value h
          · split <;>
              first
              | exact newproc_final_stable _ pid msg h
              | rfl
              | exact exec_final_stable _ pid h
              | exact exit_final_stable _ main_pid pid msg env.exitEnv h
              | exact stop_final_stable _ pid _
              | exact seccomp_final_stable _ pid _ env.fetch env.decoded
                  env.host_arch env.notify_response env.log_file env.permit_all h
        · rw [if_neg hd]
          split
          · exact sysexit_final_stable _ pid env.fetch env.ret_value h
          · split <;>
              first
              | exact newproc_final_stable _ pid msg h
              | rfl
              | exact exec_final_stable _ pid h
              | exact exit_final_stable _ main_pid pid msg env.exitEnv h
              | exact stop_final_stable _ pid _
              | exact seccomp_final_stable _ pid _ env.fetch env.decoded
                  env.host_arch env.notify_response env.log_file env.permit_all h

theorem dispatch_final_stable (s : MonitorState) (main_pid ret status : Nat)
    (env : StopEnv) (vmsg : String) (h : s.result.final_status ≠ .UNSET) :
    (runDispatch s main_pid ret status env vmsg).1.result.final_status =
      s.result.final_status := by
  unfold runDispatch
  split
  · split
    · split <;> simp [setExitStatusCode_of_ne _ _ _ h]
    · rfl
  · split
    · split
      · cases hnet : s.network_violation <;> cases hek : s.external_kill <;>
          cases hto : s.timed_out <;>
          simp [hnet, hek, hto, setExitStatusCode_of_ne _ _ _ h]
      · rfl
    · split
      · exact sps_final_stable s main_pid ret status env h
      · rfl

theorem iteResult_timeout (c : Prop) [Decidable c] (s : MonitorState) :
    (if c then { s with timed_out := true } else s).result = s.result := by
  split <;> rfl

theorem iteResult_dump (c : Prop) [Decidable c] (s : MonitorState) :
    (if c then { s with should_dump_stack := true } else s).result = s.result := by
  split <;> rfl

theorem iteResult_extkill (c : Prop) [Decidable c] (s : MonitorState) :
    (if c then { s with external_kill := true } else s).result = s.result := by
  split <;> rfl

theorem iteResult_network (c : Prop) [Decidable c] (s : MonitorState) :
    (if c then { s with network_violation := true } else s).result = s.result := by
  split <;> rfl

theorem dispatch_final_stable_eq (s s0 : MonitorState) (main_pid ret status : Nat)
    (env : StopEnv) (vmsg : String) (hres : s.result = s0.result)
    (h : s0.result.final_status ≠ .UNSET) :
    (runDispatch s main_pid ret status env vmsg).1.result.final_status =
      s0.result.final_status := by
  rw [dispatch_final_stable s main_pid ret status env vmsg (by rw [hres]; exact h), hres]

theorem deadlineStep_final_stable (s : MonitorState) (e : IterEnv)
    (h : s.result.final_status ≠ .UNSET) :
    (deadlineStep s e).1.result.final_status = s.result.final_status := by
  unfold deadlineStep
  cases hd : e.deadline_exceeded <;>
    simp [hd, setExitStatusCode_of_ne _ _ _ h] <;>
    (split <;> rfl)

theorem dumpStep_final_stable (s : MonitorState) (e : IterEnv)
    (h : s.result.final_status ≠ .UNSET) :
    (dumpStep s e).1.result.final_status = s.result.final_status := by
  unfold dumpStep
  cases hd : e.dump_edge <;>
    simp [hd, setExitStatusCode_of_ne _ _ _ h] <;>
    (split <;> rfl)

theorem extKillStep_final_stable (s : MonitorState) (e : IterEnv)
    (h : s.result.final_status ≠ .UNSET) :
    (extKillStep s e).1.result.final_status = s.result.final_status := by
  unfold extKillStep
  cases hd : e.ext_kill_edge <;>
    simp [hd, setExitStatusCode_of_ne _ _ _ h] <;>
    (split <;> rfl)

theorem networkStep_final_stable (s : MonitorState) (e : IterEnv)
    (h : s.result.final_status ≠ .UNSET) :
    (networkStep s e).1.result.final_status = s.result.final_status := by
  unfold networkStep
  cases hd : e.network_edge <;> cases hn : s.network_violation <;>
    simp [hd, hn, setExitStatusCode_of_ne _ _ _ h] <;>
    (split <;> rfl)

theorem waitStep_final_stable (main_pid : Nat) (s : MonitorState) (e : IterEnv)
    (h : s.result.final_status ≠ .UNSET) :
    (waitStep main_pid s e).result.final_status = s.result.final_status := by
  unfold waitStep
  cases e.wait_res with
  | noneReady => rfl
  | errChild => simp [setExitStatusCode_of_ne _ _ _ h]
  | errOther => rfl
  | child ret status => exact dispatch_final_stable s main_pid ret status _ _ h

theorem runIter_final_stable (main_pid : Nat) (s : MonitorState) (e : IterEnv)
    (h : s.result.final_status ≠ .UNSET) :
    (runIter main_pid s e).1.result.final_status = s.result.final_status := by
  have h1 := deadlineStep_final_stable s e h
  have h1n : (deadlineStep s e).1.result.final_status ≠ .UNSET := by
    rw [h1]; exact h
  have h2 := dumpStep_final_stable (deadlineStep s e).1 e h1n
  have h2n : (dumpStep (deadlineStep s e).1 e).1.result.final_status ≠ .UNSET := by
    rw [h2]; exact h1n
  have h3 := extKillStep_final_stable (dumpStep (deadlineStep s e).1 e).1 e h2n
  have h3n : (extKillStep (dumpStep (deadlineStep s e).1 e).1 e).1.result.final_status
      ≠ .UNSET := by
    rw [h3]; exact h2n
  have h4 := networkStep_final_stable
    (extKillStep (dumpStep (deadlineStep s e).1 e).1 e).1 e h3n
  have h4n : (networkStep (extKillStep (dumpStep (deadlineStep s e).1 e).1 e).1
      e).1.result.final_status ≠ .UNSET := by
    rw [h4]; exact h3n
  have h5 := waitStep_final_stable main_pid
    (networkStep (extKillStep (dumpStep (deadlineStep s e).1 e).1 e).1 e).1 e h4n
  unfold runIter
  dsimp only
  split
  · rw [h1]
  · split
    · rw [h2, h1]
    · split
      · rw [h3, h2, h1]
      · split
        · rw [h4, h3, h2, h1]
        · rw [h5, h4, h3, h2, h1]

theorem deadlineStep_break (s : MonitorState) (e : IterEnv)
    (h : (deadlineStep s e).2 = true) :
    (deadlineStep s e).1.result.final_status ≠ .UNSET := by
  unfold deadlineStep at h ⊢
  dsimp only at h ⊢
  split at h
  · next hc =>
      rw [if_pos hc]
      exact setExitStatusCode_final_ne_unset _ _ _ (by decide)
  · simp at h

theorem dumpStep_break (s : MonitorState) (e : IterEnv)
    (h : (dumpStep s e).2 = true) :
    (dumpStep s e).1.result.final_status ≠ .UNSET := by
  unfold dumpStep at h ⊢
  dsimp only at h ⊢
  split at h
  · next hc =>
      rw [if_pos hc]
      exact setExitStatusCode_final_ne_unset _ _ _ (by decide)
  · simp at h

theorem extKillStep_break (s : MonitorState) (e : IterEnv)
    (h : (extKillStep s e).2 = true) :
    (extKillStep s e).1.result.final_status ≠ .UNSET := by
  unfold extKillStep at h ⊢
  dsimp only at h ⊢
  split at h
  · next hc =>
      rw [if_pos hc]
      exact setExitStatusCode_final_ne_unset _ _ _ (by decide)
  · simp at h

theorem networkStep_break (s : MonitorState) (e : IterEnv)
    (h : (networkStep s e).2 = true) :
    (networkStep s e).1.result.final_status ≠ .UNSET := by
  unfold networkStep at h ⊢
  dsimp only at h ⊢
  split at h
  · next hc =>
      rw [if_pos hc]
      exact setExitStatusCode_final_ne_unset _ _ _ (by decide)
  · simp at h

theorem runIter_break_sets_status (main_pid : Nat) (s : MonitorState) (e : IterEnv)
    (h : (runIter main_pid s e).2 = false) :
    (runIter main_pid s e).1.result.final_status ≠ .UNSET := by
  unfold runIter at h ⊢
  dsimp only at h ⊢
  split at h
  · next hb =>
      rw [if_pos hb]
      exact deadlineStep_break _ e hb
  · next hb =>
      rw [if_neg hb]
      split at h
      · next hb2 =>
          rw [if_pos hb2]
          exact dumpStep_break _ e hb2
      · next hb2 =>
          rw [if_neg hb2]
          split at h
          · next hb3 =>
              rw [if_pos hb3]
              exact extKillStep_break _ e hb3
          · next hb3 =>
              rw [if_neg hb3]
              split at h
              · next hb4 =>
                  rw [if_pos hb4]
                  exact networkStep_break _ e hb4
              · simp at h

theorem runLoop_exit_terminal (main_pid : Nat) (envs : List IterEnv) :
    ∀ s : MonitorState, (runLoop main_pid envs s).2 = true →
      (runLoop main_pid envs s).1.result.final_status ≠ .UNSET := by
  induction envs with
  | nil =>
      intro s h
      simp [runLoop] at h
  | cons e rest ih =>
      intro s h
      unfold runLoop at h ⊢
      split at h
      · next hne =>
          rw [if_pos hne]
          exact hne
      · next hne =>
          rw [if_neg hne]
          dsimp only at h ⊢
          split at h
          · next hc =>
              rw [if_pos hc]
              exact ih _ h
          · next hc =>
              rw [if_neg hc]
              exact runIter_break_sets_status main_pid _ e (by simpa using hc)

theorem runLoop_stops_when_terminal (main_pid : Nat) (envs : List IterEnv)
    (s : MonitorState) (h : s.result.final_status ≠ .UNSET) :
    (runLoop main_pid envs s).1 = s ∧
      (envs ≠ [] → (runLoop main_pid envs s).2 = true) := by
  cases envs with
  | nil => exact ⟨rfl, fun hc => absurd rfl hc⟩
  | cons e rest =>
      unfold runLoop
      rw [if_pos h]
      exact ⟨rfl, fun _ => rfl⟩

/-- C2: the Result transitions from UNSET to a terminal status exactly once:
(1) once final_status is terminal, every later SetExitStatusCode leaves the
Result unchanged; (2) no iteration of the main loop body alters a terminal
final_status; (3) once terminal, the loop stops iterating (the state is
returned unchanged and the loop exits on its condition); (4) whenever the
loop exits — by its condition or by a break — the returned final_status is
not UNSET, which is the Result Join/AwaitResult hand out. -/
theorem claim2_result_set_once :
    (∀ (r : ResultState) (st : StatusEnum) (rc : Reason),
        r.final_status ≠ .UNSET → setExitStatusCode r st rc = r)
    ∧ (∀ (main_pid : Nat) (s : MonitorState) (e : IterEnv),
        s.result.final_status ≠ .UNSET →
        (runIter main_pid s e).1.result.final_status = s.result.final_status)
    ∧ (∀ (main_pid : Nat) (envs : List IterEnv) (s : MonitorState),
        s.result.final_status ≠ .UNSET →
        (runLoop main_pid envs s).1 = s ∧
          (envs ≠ [] → (runLoop main_pid envs s).2 = true))
    ∧ (∀ (main_pid : Nat) (envs : List IterEnv) (s : MonitorState),
        (runLoop main_pid envs s).2 = true →
        (runLoop main_pid envs s).1.result.final_status ≠ .UNSET) :=
  ⟨fun r st rc h => setExitStatusCode_of_ne r st rc h,
   fun main_pid s e h => runIter_final_stable main_pid s e h,
   fun main_pid envs s h => runLoop_stops_when_terminal main_pid envs s h,
   fun main_pid envs s h => runLoop_exit_terminal main_pid envs s h⟩

/-- C2 witness: a Result already set to OK is not overwritten by a TIMEOUT
attempt, a loop on it stops immediately, and a loop that exits (here through
a failing kill after the deadline fired) reports a non-UNSET status. -/
theorem claim2_witness :
    setExitStatusCode { final_status := StatusEnum.OK } .TIMEOUT (.num 0) =
      { final_status := StatusEnum.OK }
    ∧ (runLoop 2 [{}] { result := { final_status := StatusEnum.OK } }).1 =
        { result := { final_status := StatusEnum.OK } }
    ∧ (runLoop 2 [{ deadline_exceeded := true, kill_ok := false }] {}).2 = true
    ∧ (runLoop 2 [{ deadline_exceeded := true, kill_ok := false }]
        {}).1.result.final_status ≠ .UNSET := by
  have h1 := claim2_result_set_once.1 { final_status := StatusEnum.OK } .TIMEOUT
    (.num 0) (by decide)
  have h3 := claim2_result_set_once.2.2.1 2 [{}]
    { result := { final_status := StatusEnum.OK } } (by decide)
  have h4 := claim2_result_set_once.2.2.2 2
    [{ deadline_exceeded := true, kill_ok := false }] {} (by decide)
  exact ⟨h1, h3.1, by decide, h4⟩

/-! ## Claim C6: the PidWaiter contract -/

theorem refillGo_queries_tail (script : List WRes) :
    ∃ k, (refillGo script (-1)).queries = List.replicate k (-1) := by
  induction script with
  | nil => exact ⟨0, rfl⟩
  | cons r rest ih =>
      cases r with
      | ready q st =>
          obtain ⟨k, hk⟩ := ih
          exact ⟨k + 1, by simp [refillGo, hk, List.replicate_succ]⟩
      | fail e => exact ⟨1, by simp [refillGo, List.replicate_succ]⟩
      | noChild => exact ⟨1, by simp [refillGo, List.replicate_succ]⟩

theorem refillGo_queries_shape (script : List WRes) (p : Int) :
    (refillGo script p).queries = []
    ∨ ∃ k, (refillGo script p).queries = p :: List.replicate k (-1) := by
  cases script with
  | nil => exact Or.inl rfl
  | cons r rest =>
      cases r with
      | ready q st =>
          obtain ⟨k, hk⟩ := refillGo_queries_tail rest
          exact Or.inr ⟨k, by simp [refillGo, hk]⟩
      | fail e => exact Or.inr ⟨0, by simp [refillGo]⟩
      | noChild =>
          by_cases hp : p = -1
          · exact Or.inr ⟨0, by simp [refillGo, hp]⟩
          · obtain ⟨k, hk⟩ := refillGo_queries_tail rest
            exact Or.inr ⟨k, by simp [refillGo, hp, hk]⟩

theorem refillGo_statuses_prefix (script : List WRes) :
    ∀ p : Int, ∃ n,
      (refillGo script p).statuses = (script.take n).filterMap readyPair := by
  induction script with
  | nil => exact fun p => ⟨0, rfl⟩
  | cons r rest ih =>
      intro p
      cases r with
      | ready q st =>
          obtain ⟨n, hn⟩ := ih (-1)
          exact ⟨n + 1, by simp [refillGo, readyPair, hn]⟩
      | fail e => exact ⟨0, by simp [refillGo]⟩
      | noChild =>
          by_cases hp : p = -1
          · exact ⟨0, by simp [refillGo, hp]⟩
          · obtain ⟨n, hn⟩ := ih (-1)
            exact ⟨n + 1, by simp [refillGo, readyPair, hp, hn]⟩

theorem refillGo_statuses_pos (script : List WRes) :
    ∀ p : Int, (∀ q st, WRes.ready q st ∈ script → 0 < q) →
      ∀ pr ∈ (refillGo script p).statuses, 0 < pr.1 := by
  induction script with
  | nil => intro p _ pr hpr; simp [refillGo] at hpr
  | cons r rest ih =>
      intro p hpos pr hpr
      cases r with
      | ready q st =>
          simp only [refillGo] at hpr
          rcases List.mem_cons.mp hpr with h | h
          · subst h; exact hpos q st (List.mem_cons_self _ _)
          · exact ih (-1) (fun a b hm => hpos a b (List.mem_cons_of_mem _ hm)) pr h
      | fail e => simp [refillGo] at hpr
      | noChild =>
          by_cases hp : p = -1
          · simp [refillGo, hp] at hpr
          · simp only [refillGo, if_neg hp] at hpr
            exact ih (-1) (fun a b hm => hpos a b (List.mem_cons_of_mem _ hm)) pr hpr

/-- C6: the PidWaiter contract: a refill happens only with an empty queue
and no pending error and then issues one waitpid for the priority PID
followed by waitpid(-1) calls; the gathered pairs are exactly the ready
answers of a prefix of the kernel answer stream, in order; Wait returns 0
exactly when the refill gathered nothing and recorded no error, returns -1
with the recorded errno exactly when it gathered nothing and recorded an
error, and otherwise serves the gathered pairs FIFO, one per call, without
touching the kernel while the queue or a pending error remains. -/
theorem claim6_pidwaiter_contract :
    (∀ (script : List WRes) (p : Int),
        (refillGo script p).queries = []
        ∨ ∃ k, (refillGo script p).queries = p :: List.replicate k (-1))
    ∧ (∀ (script : List WRes) (p : Int), ∃ n,
        (refillGo script p).statuses = (script.take n).filterMap readyPair)
    ∧ (∀ (s : PidWaiterState) (script : List WRes),
        s.statuses = [] → s.last_errno = 0 →
        (∀ q st, WRes.ready q st ∈ script → 0 < q) →
        ((pwWait s script).ret = 0 ↔
          (refillGo script s.priority_pid).statuses = []
          ∧ (refillGo script s.priority_pid).last_errno = 0)
        ∧ ((pwWait s script).ret = -1 ↔
          (refillGo script s.priority_pid).statuses = []
          ∧ (refillGo script s.priority_pid).last_errno ≠ 0)
        ∧ ((refillGo script s.priority_pid).statuses = [] →
          (refillGo script s.priority_pid).last_errno ≠ 0 →
          (pwWait s script).errnoOut = some (refillGo script s.priority_pid).last_errno)
        ∧ (∀ q st rest, (refillGo script s.priority_pid).statuses = (q, st) :: rest →
          (pwWait s script).ret = q ∧ (pwWait s script).status = some st
          ∧ (pwWait s script).st.statuses = rest)
        ∧ (pwWait s script).queries = (refillGo script s.priority_pid).queries)
    ∧ (∀ (s : PidWaiterState) (script : List WRes) (q st : Int)
        (rest : List (Int × Int)), s.statuses = (q, st) :: rest →
        pwWait s script = ⟨q, some st, none, { s with statuses := rest }, []⟩)
    ∧ (∀ (s : PidWaiterState) (script : List WRes), s.statuses = [] →
        s.last_errno ≠ 0 →
        pwWait s script =
          ⟨-1, none, some s.last_errno, { s with last_errno := 0 }, []⟩) := by
  refine ⟨refillGo_queries_shape, fun script p => refillGo_statuses_prefix script p,
    ?_, ?_, ?_⟩
  · intro s script hs he hpos
    have hps := refillGo_statuses_pos script s.priority_pid hpos
    rcases ho : (refillGo script s.priority_pid).statuses with _ | ⟨⟨q0, s0⟩, rest0⟩
    · by_cases he2 : (refillGo script s.priority_pid).last_errno = 0
      · have hpw : pwWait s script =
            ⟨0, none, none, { s with statuses := [], last_errno := 0 },
             (refillGo script s.priority_pid).queries⟩ := by
          unfold pwWait
          simp [hs, he, ho, he2]
        rw [hpw]
        simp [ho, he2]
      · have hpw : pwWait s script =
            ⟨-1, none, some (refillGo script s.priority_pid).last_errno,
             { s with statuses := [], last_errno := 0 },
             (refillGo script s.priority_pid).queries⟩ := by
          unfold pwWait
          simp [hs, he, ho, he2]
        rw [hpw]
        simp [ho, he2]
    · have hq0 : 0 < q0 := by
        have := hps (q0, s0) (by rw [ho]; exact List.mem_cons_self _ _)
        simpa using this
      have hpw : pwWait s script =
          ⟨q0, some s0, none, { s with statuses := rest0, last_errno := (refillGo script s.priority_pid).last_errno }, (refillGo script s.priority_pid).queries⟩ := by
        unfold pwWait
        simp [hs, he, ho]
      rw [hpw]
      refine ⟨?_, ?_, ?_, ?_, rfl⟩
      · simp [ho]
        omega
      · simp [ho]
        omega
      · intro hcontra
        simp at hcontra
      · intro q st rest heq
        injection heq with h1 h2
        injection h1 with h3 h4
        exact ⟨by simpa using h3, by simpa using h4, by simpa using h2⟩
  · intro s script q st rest hs
    unfold pwWait
    simp [hs]
  · intro s script hs he
    unfold pwWait
    simp [hs, he]

/-- C6 witness: a concrete kernel stream exercising the refill, the error
return and the FIFO service. -/
theorem claim6_witness :
    ((pwWait ⟨5, [], 0⟩ [.ready 5 7, .ready 6 8, .noChild]).ret = 5
      ∧ (pwWait ⟨5, [], 0⟩ [.ready 5 7, .ready 6 8, .noChild]).status = some 7
      ∧ (pwWait ⟨5, [], 0⟩ [.ready 5 7, .ready 6 8, .noChild]).st.statuses = [(6, 8)])
    ∧ (pwWait ⟨5, [(6, 8)], 0⟩ []).ret = 6
    ∧ ((pwWait ⟨5, [], 0⟩ [.fail 10]).ret = -1
      ∧ (pwWait ⟨5, [], 0⟩ [.fail 10]).errnoOut = some 10)
    ∧ (pwWait ⟨5, [], 0⟩ [.noChild, .noChild]).ret = 0 := by
  have hpos56 : ∀ q st : Int,
      WRes.ready q st ∈ [WRes.ready 5 7, WRes.ready 6 8, WRes.noChild] → 0 < q := by
    intro q st hm
    simp [WRes.ready.injEq] at hm
    rcases hm with ⟨h1, _⟩ | ⟨h1, _⟩ <;> omega
  refine ⟨?_, ?_, ?_, ?_⟩
  · exact (claim6_pidwaiter_contract.2.2.1 ⟨5, [], 0⟩
      [.ready 5 7, .ready 6 8, .noChild] rfl rfl hpos56).2.2.2.1 5 7 [(6, 8)] (by decide)
  · have h := claim6_pidwaiter_contract.2.2.2.1 ⟨5, [(6, 8)], 0⟩ [] 6 8 [] rfl
    rw [h]
  · have h := claim6_pidwaiter_contract.2.2.1 ⟨5, [], 0⟩ [.fail 10] rfl rfl
      (by intro q st hm; simp at hm)
    exact ⟨(h.2.1).mpr (by decide), h.2.2.1 (by decide) (by decide)⟩
  · exact (claim6_pidwaiter_contract.2.2.1 ⟨5, [], 0⟩ [.noChild, .noChild] rfl rfl
      (by intro q st hm; simp at hm)).1.mpr (by decide)

/-! ## Claim C7 (corrected): GetSymbolAt floor lookup -/

theorem takeWhile_append_stop {α : Type} (p : α → Bool) (l1 : List α) (x : α)
    (l2 : List α) (h1 : ∀ y ∈ l1, p y = true) (hx : p x = false) :
    (l1 ++ x :: l2).takeWhile p = l1 := by
  induction l1 with
  | nil => simp [List.takeWhile_cons, hx]
  | cons a t ih =>
      have ha : p a = true := h1 a (List.mem_cons_self _ _)
      simp [List.takeWhile_cons, ha,
            ih (fun y hy => h1 y (List.mem_cons_of_mem _ hy))]

theorem dropWhile_append_stop {α : Type} (p : α → Bool) (l1 : List α) (x : α)
    (l2 : List α) (h1 : ∀ y ∈ l1, p y = true) (hx : p x = false) :
    (l1 ++ x :: l2).dropWhile p = x :: l2 := by
  induction l1 with
  | nil => simp [List.dropWhile_cons, hx]
  | cons a t ih =>
      have ha : p a = true := h1 a (List.mem_cons_self _ _)
      simp [List.dropWhile_cons, ha,
            ih (fun y hy => h1 y (List.mem_cons_of_mem _ hy))]

/-- C7 counterexample: the claim states an address that is exactly a key of
the map returns that key's demangled symbol.  For the SMALLEST key,
lower_bound(addr) is begin(), the guard entry != begin() fails, and the
function returns the empty string instead: on the one-entry map
(10 maps-to "foo") looking up 10 yields "", not "foo". -/
theorem claim7_counterexample :
    getSymbolAt (fun s => s) [(10, "foo")] 10 = ""
    ∧ ("" : String) ≠ "foo" := by
  constructor
  · rfl
  · intro h
    have := congrArg String.length h
    simp [String.length] at this

/-- C7 amended: GetSymbolAt returns the demangled symbol at an exact key
match EXCEPT when the address equals the smallest key of the map, where it
returns the empty string (lower_bound lands on begin and the guard fails);
an address strictly between keys returns demangle(floor)+0xOFFSET unless
the floor entry is the empty-string sentinel, in which case it returns the
empty string; an address below the smallest or above the largest key
returns the empty string. -/
theorem claim7_amended_get_symbol_at (d : String → String) (a : Nat) :
    (∀ (pre : SymbolMap) (k : Nat) (v : String) (suf : SymbolMap),
      pre ≠ [] → (∀ q ∈ pre, q.1 < k) →
      getSymbolAt d (pre ++ (k, v) :: suf) k = d v)
    ∧ (∀ (k : Nat) (v : String) (t : SymbolMap), getSymbolAt d ((k, v) :: t) k = "")
    ∧ (∀ (pre : SymbolMap) (f : Nat) (fv : String) (r : Nat × String)
        (rest2 : SymbolMap),
      (∀ q ∈ pre, q.1 < a) → f < a → a < r.1 →
      (fv ≠ "" →
        getSymbolAt d (pre ++ (f, fv) :: r :: rest2) a =
          d fv ++ "+0x" ++ toHex (a - f))
      ∧ (fv = "" → getSymbolAt d (pre ++ (f, fv) :: r :: rest2) a = ""))
    ∧ (∀ m : SymbolMap, (∀ q ∈ m, ¬(q.1 < a)) → getSymbolAt d m a = "")
    ∧ (∀ m : SymbolMap, (∀ q ∈ m, q.1 < a) → getSymbolAt d m a = "") := by
  refine ⟨?_, ?_, ?_, ?_, ?_⟩
  · intro pre k v suf hpre hlt
    unfold getSymbolAt
    rw [takeWhile_append_stop _ pre (k, v) suf
          (fun y hy => by simpa using hlt y hy) (by simp),
        dropWhile_append_stop _ pre (k, v) suf
          (fun y hy => by simpa using hlt y hy) (by simp)]
    obtain ⟨b, hb⟩ := Option.isSome_iff_exists.mp
      (List.getLast?_isSome.mpr hpre)
    simp [hb]
  · intro k v t
    unfold getSymbolAt
    simp [List.takeWhile_cons]
  · intro pre f fv r rest2 hpre hf hr
    have hall : ∀ y ∈ pre ++ [(f, fv)], (fun q : Nat × String => decide (q.1 < a)) y = true := by
      intro y hy
      rcases List.mem_append.mp hy with h | h
      · simpa using hpre y h
      · simp at h
        subst h
        simpa using hf
    have hstop : (fun q : Nat × String => decide (q.1 < a)) r = false := by
      simp
      omega
    have hsplit : pre ++ (f, fv) :: r :: rest2 = (pre ++ [(f, fv)]) ++ r :: rest2 := by
      simp
    have hra : r.1 ≠ a := by omega
    constructor
    · intro hfv
      unfold getSymbolAt
      rw [hsplit, takeWhile_append_stop _ _ r rest2 hall hstop,
          dropWhile_append_stop _ _ r rest2 hall hstop]
      dsimp only
      rw [List.getLast?_concat]
      simp [hra, hfv]
    · intro hfv
      unfold getSymbolAt
      rw [hsplit, takeWhile_append_stop _ _ r rest2 hall hstop,
          dropWhile_append_stop _ _ r rest2 hall hstop]
      dsimp only
      rw [List.getLast?_concat]
      simp [hra, hfv]
  · intro m hm
    unfold getSymbolAt
    cases m with
    | nil => rfl
    | cons q t =>
        have hq : (fun e : Nat × String => decide (e.1 < a)) q = false := by
          simpa using hm q (List.mem_cons_self _ _)
        simp [List.takeWhile_cons, hq]
  · intro m hm
    unfold getSymbolAt
    have hdrop : m.dropWhile (fun e : Nat × String => decide (e.1 < a)) = [] :=
      List.dropWhile_eq_nil_iff.mpr (fun x hx => by simpa using hm x hx)
    rw [hdrop]

/-- C7 witness: a two-entry map exercising the non-minimal exact match, the
floor-plus-offset lookup, the sentinel and the outside cases. -/
theorem claim7_witness :
    getSymbolAt (fun s => s) [(16, "foo"), (32, "bar")] 32 = "bar"
    ∧ getSymbolAt (fun s => s) [(16, "foo"), (32, "")] 21 = "foo+0x5"
    ∧ getSymbolAt (fun s => s) [(16, ""), (32, "bar")] 21 = ""
    ∧ getSymbolAt (fun s => s) [(16, "foo"), (32, "bar")] 3 = ""
    ∧ getSymbolAt (fun s => s) [(16, "foo"), (32, "bar")] 99 = "" := by
  have h21 := claim7_amended_get_symbol_at (fun s => s) 21
  refine ⟨?_, ?_, ?_, ?_, ?_⟩
  · exact (claim7_amended_get_symbol_at (fun s => s) 32).1 [(16, "foo")] 32 "bar" []
      (by simp) (by decide)
  · have h := ((h21.2.2.1 [] 16 "foo" (32, "") []
      (by simp) (by omega) (by norm_num)).1 (by simp))
    simpa [toHex, Nat.toDigits] using h
  · exact (h21.2.2.1 [] 16 "" (32, "bar") [] (by simp) (by omega) (by norm_num)).2 rfl
  · exact (claim7_amended_get_symbol_at (fun s => s) 3).2.2.2.1
      [(16, "foo"), (32, "bar")] (by decide)
  · exact (claim7_amended_get_symbol_at (fun s => s) 99).2.2.2.2
      [(16, "foo"), (32, "bar")] (by decide)

/-! ## Claim C10: the map pseudo-symbol of a region -/

theorem mapInsert_cons_gt (b : Nat) (w : String) (t : SymbolMap) (k : Nat)
    (v : String) (h : b < k) :
    mapInsert ((b, w) :: t) k v = (b, w) :: mapInsert t k v := by
  simp only [mapInsert]
  rw [if_neg (by omega), if_neg (by omega)]

theorem mapInsert_ne_nil (t : SymbolMap) (k : Nat) (v : String) :
    mapInsert t k v ≠ [] := by
  cases t with
  | nil => simp [mapInsert]
  | cons e t =>
      obtain ⟨b, w⟩ := e
      unfold mapInsert
      split
      · simp
      · split <;> simp

theorem mapInsert_keys_gt (t : SymbolMap) (k : Nat) (v : String) (a : Nat)
    (ht : ∀ q ∈ t, a < q.1) (hk : a < k) : ∀ q ∈ mapInsert t k v, a < q.1 := by
  induction t with
  | nil =>
      intro q hq
      simp [mapInsert] at hq
      subst hq
      exact hk
  | cons e t ih =>
      obtain ⟨b, w⟩ := e
      intro q hq
      unfold mapInsert at hq
      split at hq
      · rcases List.mem_cons.mp hq with h | h
        · subst h; exact hk
        · exact ht q h
      · split at hq
        · rcases List.mem_cons.mp hq with h | h
          · subst h; exact hk
          · exact ht q (List.mem_cons_of_mem _ h)
        · rcases List.mem_cons.mp hq with h | h
          · subst h; exact ht (b, w) (List.mem_cons_self _ _)
          · exact ih (fun p hp => ht p (List.mem_cons_of_mem _ hp)) q h

theorem mapInsert_mem_of_ne (t : SymbolMap) (k : Nat) (v : String)
    (q : Nat × String) (hq : q ∈ t) (hne : q.1 ≠ k) : q ∈ mapInsert t k v := by
  induction t with
  | nil => simp at hq
  | cons e t ih =>
      obtain ⟨b, w⟩ := e
      unfold mapInsert
      split
      · exact List.mem_cons_of_mem _ hq
      · next heq =>
          split
          · next hkb =>
              rcases List.mem_cons.mp hq with h | h
              · exfalso
                apply hne
                rw [h]
                exact hkb.symm
              · exact List.mem_cons_of_mem _ h
          · rcases List.mem_cons.mp hq with h | h
            · rw [h]
              exact List.mem_cons_self _ _
            · exact List.mem_cons_of_mem _ (ih h)

theorem symKey_lt_endAddr (e : MapsEntry) (elf : ElfData) (sym : ElfSymbol)
    (hin : symInRange e elf sym = true) (hse : e.start < e.endAddr) :
    symKey e elf sym < e.endAddr := by
  unfold symInRange at hin
  unfold symKey
  split at hin
  · next hpie =>
      rw [if_pos hpie]
      simp only [Bool.and_eq_true, decide_eq_true_eq] at hin
      omega
  · next hpie =>
      rw [if_neg hpie]
      simp only [Bool.and_eq_true, decide_eq_true_eq] at hin
      omega

theorem insertRegionSymbols_inv (armHost : Bool) (e : MapsEntry) (elf : ElfData)
    (a : Nat) (pseudo : String) (hse : e.start < e.endAddr) (hsa : e.start < a) :
    ∀ (l : List ElfSymbol) (rest : SymbolMap),
      (∀ sym ∈ l, (armHost && isArmMappingSymbol sym.name) = false →
        symInRange e elf sym = true → a < symKey e elf sym) →
      rest ≠ [] → (∀ q ∈ rest, a < q.1) → (e.endAddr, "") ∈ rest →
      ∃ rest2,
        List.foldl (fun m sym =>
          if armHost && isArmMappingSymbol sym.name then m
          else if symInRange e elf sym then mapInsert m (symKey e elf sym) sym.name
          else m) ((e.start, pseudo) :: rest) l = (e.start, pseudo) :: rest2
        ∧ rest2 ≠ [] ∧ (∀ q ∈ rest2, a < q.1) ∧ (e.endAddr, "") ∈ rest2 := by
  intro l
  induction l with
  | nil => exact fun rest _ h1 h2 h3 => ⟨rest, rfl, h1, h2, h3⟩
  | cons sym l ih =>
      intro rest hsym h1 h2 h3
      simp only [List.foldl_cons]
      by_cases harm : (armHost && isArmMappingSymbol sym.name) = true
      · rw [if_pos harm]
        exact ih rest (fun y hy => hsym y (List.mem_cons_of_mem _ hy)) h1 h2 h3
      · rw [if_neg harm]
        by_cases hin : symInRange e elf sym = true
        · rw [if_pos hin]
          have hka : a < symKey e elf sym :=
            hsym sym (List.mem_cons_self _ _) (by simpa using harm) hin
          have hstep : mapInsert ((e.start, pseudo) :: rest) (symKey e elf sym)
              sym.name = (e.start, pseudo) :: mapInsert rest (symKey e elf sym)
              sym.name := mapInsert_cons_gt _ _ _ _ _ (by omega)
          rw [hstep]
          refine ih (mapInsert rest (symKey e elf sym) sym.name)
            (fun y hy => hsym y (List.mem_cons_of_mem _ hy))
            (mapInsert_ne_nil _ _ _)
            (mapInsert_keys_gt _ _ _ _ h2 hka)
            (mapInsert_mem_of_ne _ _ _ _ h3 ?_)
          have hklt := symKey_lt_endAddr e elf sym hin hse
          simp
          omega
        · rw [if_neg hin]
          exact ih rest (fun y hy => hsym y (List.mem_cons_of_mem _ hy)) h1 h2 h3

theorem regionMapName_ne_empty (e : MapsEntry) : regionMapName e ≠ "" := by
  intro h
  have hlen := congrArg String.length h
  unfold regionMapName at hlen
  rw [String.length_append, String.length_append] at hlen
  have h4 : ("map:" : String).length = 4 := rfl
  have h0 : ("" : String).length = 0 := rfl
  rw [h4, h0] at hlen
  omega

/-- C10: for an accepted region (executable, file-backed, named, not
deleted), LoadSymbolsMap stores the pseudo-symbol "map:path" (with
"+0xPGOFF" appended when the page offset is nonzero) at the region start
and the empty-string sentinel at the region end, so an address inside the
region that precedes every symbol the loop actually stores for the region
(those in range and not skipped as ARM mapping symbols) symbolizes to the
pseudo-name plus its offset from the region start rather than to the empty
string. -/
theorem claim10_region_pseudo_symbol (armHost : Bool) (e : MapsEntry)
    (elf : ElfData) (d : String → String) (a : Nat)
    (hacc : acceptedEntry e = true) (h1 : e.start < a) (h2 : a < e.endAddr)
    (hsym : ∀ sym ∈ elf.symbols, (armHost && isArmMappingSymbol sym.name) = false →
      symInRange e elf sym = true → a < symKey e elf sym)
    (hd : d (regionMapName e) = regionMapName e) :
    mapLookup (loadSymbolsMap armHost [(e, elf)]) e.start =
      some (regionMapName e)
    ∧ (e.endAddr, "") ∈ loadSymbolsMap armHost [(e, elf)]
    ∧ getSymbolAt d (loadSymbolsMap armHost [(e, elf)]) a =
        regionMapName e ++ "+0x" ++ toHex (a - e.start) := by
  have hse : e.start < e.endAddr := lt_trans h1 h2
  have hload : loadSymbolsMap armHost [(e, elf)] = processEntry armHost [] e elf := by
    simp [loadSymbolsMap]
  have hm2 : mapInsert (mapInsert [] e.start (regionMapName e)) e.endAddr "" =
      [(e.start, regionMapName e), (e.endAddr, "")] := by
    show mapInsert [(e.start, regionMapName e)] e.endAddr "" = _
    unfold mapInsert
    rw [if_neg (by omega), if_neg (by omega)]
    rfl
  have hshape : ∃ rest2, loadSymbolsMap armHost [(e, elf)] =
      (e.start, regionMapName e) :: rest2
      ∧ rest2 ≠ [] ∧ (∀ q ∈ rest2, a < q.1) ∧ (e.endAddr, "") ∈ rest2 := by
    rw [hload]
    unfold processEntry
    rw [if_neg (by simp [hacc])]
    dsimp only
    rw [hm2]
    by_cases hp : elf.parses = true
    · rw [if_neg (by simp [hp])]
      unfold insertRegionSymbols
      exact insertRegionSymbols_inv armHost e elf a (regionMapName e) hse h1
        elf.symbols [(e.endAddr, "")] hsym (by simp) (by simp; omega) (by simp)
    · rw [if_pos (by simpa using hp)]
      exact ⟨[(e.endAddr, "")], rfl, by simp, by simp; omega, by simp⟩
  obtain ⟨rest2, hmap, hne, hgt, hmem⟩ := hshape
  rw [hmap]
  refine ⟨?_, List.mem_cons_of_mem _ hmem, ?_⟩
  · simp [mapLookup]
  · obtain ⟨r, t, hrt⟩ : ∃ r t, rest2 = r :: t := by
      cases rest2 with
      | nil => exact absurd rfl hne
      | cons r t => exact ⟨r, t, rfl⟩
    subst hrt
    have hr1 : a < r.1 := hgt r (List.mem_cons_self _ _)
    unfold getSymbolAt
    have htake : ((e.start, regionMapName e) :: r :: t).takeWhile
        (fun q : Nat × String => decide (q.1 < a)) = [(e.start, regionMapName e)] := by
      rw [show ((e.start, regionMapName e) :: r :: t) =
            [(e.start, regionMapName e)] ++ r :: t by rfl]
      exact takeWhile_append_stop _ _ r t (by simp [h1]) (by simp; omega)
    have hdrop : ((e.start, regionMapName e) :: r :: t).dropWhile
        (fun q : Nat × String => decide (q.1 < a)) = r :: t := by
      rw [show ((e.start, regionMapName e) :: r :: t) =
            [(e.start, regionMapName e)] ++ r :: t by rfl]
      exact dropWhile_append_stop _ _ r t (by simp [h1]) (by simp; omega)
    rw [htake, hdrop]
    dsimp only
    have hra : r.1 ≠ a := by omega
    simp [hra, regionMapName_ne_empty e, hd]

/-- C10 witness: a concrete accepted region 0x1000-0x2000 at page offset 0
with one symbol at 0x1800; the address 0x1400 precedes that symbol and
symbolizes to the map pseudo-name plus 0x400. -/
theorem claim10_witness :
    getSymbolAt (fun s => s)
      (loadSymbolsMap false
        [(⟨4096, 8192, 0, 5, "/bin/app", true⟩,
          ⟨true, false, [⟨6144, "main"⟩]⟩)]) 5120 =
      "map:/bin/app" ++ "+0x" ++ toHex 1024 := by
  have h := (claim10_region_pseudo_symbol false
    ⟨4096, 8192, 0, 5, "/bin/app", true⟩ ⟨true, false, [⟨6144, "main"⟩]⟩
    (fun s => s) 5120 (by decide) (by decide) (by decide)
    (by intro sym hm; simp at hm; subst hm; decide) rfl).2.2
  have hofs : (5120 : Nat) - 4096 = 1024 := by decide
  rw [h, hofs]
  rfl

end Sandbox2

